import Mathlib

/-!
Verification of the data-loading and filtering pipeline of the Central Park
Squirrel Census dashboard (`veverky.py`).

The raw CSV is modelled as an association list from column names to columns of
raw cells (`Option String`: `none` is a missing value, pandas `NaN`).  The
loader `load_data` normalizes the two coordinate columns and the declared
boolean-flag columns, mirroring lines 13-29 of the source.  The filter and
aggregation engine is modelled over an ordered list of canonical `Row` records,
mirroring lines 37-68 and 106-121 of the source.
-/

/-- An exact decimal number `m / 10 ^ e`, the result of parsing a decimal
numeral.  Kept unreduced so that equalities on parsed cells are decidable by
kernel computation. -/
structure Decimal where
  m : Int
  e : Nat
  deriving DecidableEq, Repr

/-- The rational value denoted by a parsed decimal. -/
def Decimal.toRat (d : Decimal) : Rat := (d.m : Rat) / (10 : Rat) ^ d.e

/-- A cell of the canonical table after loading: missing, an opaque string,
a parsed number, or a normalized boolean. -/
inductive Cell where
  | null : Cell
  | str (s : String) : Cell
  | num (q : Decimal) : Cell
  | bool (b : Bool) : Cell
  deriving DecidableEq, Repr

/-- A raw data frame: column name to column of raw cells, in column order. -/
abbrev RawDF : Type := List (String × List (Option String))

/-- A canonical data frame after loading. -/
abbrev CanonDF : Type := List (String × List Cell)

/-- Python `str(x)` on a raw cell: a missing value (pandas `NaN`) prints as
the string "nan"; a string prints as itself. -/
def pyStr : Option String → String
  | none => "nan"
  | some s => s

/-- `str.replace(',', '.')`: replace every comma by a period. -/
def replaceCommaDot (s : String) : String :=
  String.mk (s.toList.map (fun c => if c = ',' then '.' else c))

/-- Python `str.upper()`, character by character. -/
def pyUpper (s : String) : String :=
  String.mk (s.toList.map Char.toUpper)

/-- Strip leading and trailing whitespace from a character list. -/
def trimChars (cs : List Char) : List Char :=
  ((cs.dropWhile Char.isWhitespace).reverse.dropWhile Char.isWhitespace).reverse

/-- Numeric value of a decimal digit character. -/
def digitVal (c : Char) : Nat := c.toNat - '0'.toNat

/-- Read a list of characters as a base-10 natural number; `none` if any
character is not a digit.  The empty list reads as `0`. -/
def digitsToNat : List Char → Option Nat :=
  fun cs => cs.foldl
    (fun acc c => acc.bind (fun v => if c.isDigit then some (10 * v + digitVal c) else none))
    (some 0)

/-- Model of `pd.to_numeric(s, errors='coerce')` on a single string: an
optionally signed decimal numeral with at most one decimal point and at least
one digit parses to an exact decimal; anything else coerces to `none` (pandas
`NaN`, treated as missing). -/
def parseNum (s : String) : Option Decimal :=
  let cs := trimChars s.toList
  let signed : Bool × List Char :=
    match cs with
    | '-' :: t => (true, t)
    | '+' :: t => (false, t)
    | t => (false, t)
  let neg := signed.1
  let body := signed.2
  let ip := body.takeWhile (fun c => c ≠ '.')
  let rest := body.dropWhile (fun c => c ≠ '.')
  match rest with
  | [] =>
    if ip.isEmpty then none
    else (digitsToNat ip).map
      (fun n => { m := if neg then -(n : Int) else (n : Int), e := 0 })
  | _ :: frac =>
    if ip.isEmpty && frac.isEmpty then none
    else
      match digitsToNat ip, digitsToNat frac with
      | some i, some f =>
        let n : Int := (i : Int) * (10 : Int) ^ frac.length + (f : Int)
        some { m := if neg then -n else n, e := frac.length }
      | _, _ => none

/-- Coordinate coercion (source line 19-20):
`pd.to_numeric(df[c].astype(str).str.replace(',', '.'), errors='coerce')`
applied to one cell.  Parse failure yields a missing cell, never an error. -/
def coerceCoordCell (c : Option String) : Cell :=
  match parseNum (replaceCommaDot (pyStr c)) with
  | some q => Cell.num q
  | none => Cell.null

/-- Boolean coercion (source line 27):
`True if str(x).upper() == 'TRUE' else False`. -/
def coerceBool (c : Option String) : Bool :=
  pyUpper (pyStr c) == "TRUE"

/-- Boolean column cell after normalization. -/
def coerceBoolCell (c : Option String) : Cell :=
  Cell.bool (coerceBool c)

/-- Cells of columns that are neither coordinates nor boolean flags pass
through unchanged as opaque (possibly missing) strings. -/
def passthroughCell (c : Option String) : Cell :=
  match c with
  | none => Cell.null
  | some s => Cell.str s

/-- The declared boolean-flag columns (source lines 23-24). -/
def bool_cols : List String :=
  ["Running", "Chasing", "Climbing", "Eating", "Foraging", "Kuks", "Quaas",
   "Moans", "Tail_flags", "Tail_twitches", "Approaches", "Indifferent", "Runs_from"]

/-- Normalization of one named column, as performed by `load_data`:
`X` and `Y` get the coordinate coercion; a declared boolean column present in
the frame gets the boolean coercion (the `if col in df.columns` guard at
line 26 is modelled by only ever mapping over columns that are present);
every other column passes through. -/
def loadCol (nc : String × List (Option String)) : String × List Cell :=
  if nc.1 = "X" ∨ nc.1 = "Y" then (nc.1, nc.2.map coerceCoordCell)
  else if bool_cols.contains nc.1 then (nc.1, nc.2.map coerceBoolCell)
  else (nc.1, nc.2.map passthroughCell)

/-- The loader (source lines 13-29).  Accessing `df['X']` or `df['Y']` on a
frame missing that column raises a `KeyError` in the source, modelled as an
`Except.error`; otherwise every present column is normalized per its class
and the frame is returned. -/
def load_data (df : RawDF) : Except String CanonDF :=
  match df.lookup "X", df.lookup "Y" with
  | some _, some _ => Except.ok (df.map loadCol)
  | none, _ => Except.error "KeyError: X"
  | some _, none => Except.error "KeyError: Y"

/-- One record of the canonical table, with the source's column names.
Coordinates are parsed numbers or missing; the three filterable categorical
fields and the free-text fields are possibly-missing strings; the thirteen
behavior flags are strict booleans (the loader invariant). -/
structure Row where
  Unique_Squirrel_ID : Option String
  X : Option Decimal
  Y : Option Decimal
  Age : Option String
  Primary_Fur_Color : Option String
  Shift : Option String
  Location : Option String
  Running : Bool
  Chasing : Bool
  Climbing : Bool
  Eating : Bool
  Foraging : Bool
  Kuks : Bool
  Quaas : Bool
  Moans : Bool
  Tail_flags : Bool
  Tail_twitches : Bool
  Approaches : Bool
  Indifferent : Bool
  Runs_from : Bool
  deriving DecidableEq, Repr

/-- Pandas `series.isin(sel)` on one possibly-missing cell: a missing value
is never a member of the selection list. -/
def optIsin (v : Option String) (sel : List String) : Bool :=
  match v with
  | some s => sel.contains s
  | none => false

/-- The filter pipeline (source lines 49-55).  Each of the three `if` guards
is Python truthiness on a list: an empty selection list skips that filter
entirely; a non-empty one keeps the rows whose value is in the selection. -/
def applyFilters (rows : List Row)
    (selected_colors selected_ages selected_shifts : List String) : List Row :=
  let r1 := if selected_colors.isEmpty then rows
    else rows.filter (fun r => optIsin r.Primary_Fur_Color selected_colors)
  let r2 := if selected_ages.isEmpty then r1
    else r1.filter (fun r => optIsin r.Age selected_ages)
  if selected_shifts.isEmpty then r2
  else r2.filter (fun r => optIsin r.Shift selected_shifts)

/-- First-seen deduplication with an accumulator of already-seen values:
the behavior of pandas `Series.unique()` on an ordered column. -/
def dedupFirstAux (seen : List String) : List String → List String
  | [] => []
  | v :: rest =>
    if seen.contains v then dedupFirstAux seen rest
    else v :: dedupFirstAux (v :: seen) rest

/-- Pandas `Series.unique()`: distinct values in order of first occurrence. -/
def dedupFirst (l : List String) : List String := dedupFirstAux [] l

/-- `df[field].dropna().unique().tolist()` (source lines 37, 41, 45): the
distinct non-missing values of a categorical field, in first-seen order. -/
def availableValues (rows : List Row) (f : Row → Option String) : List String :=
  dedupFirst (rows.filterMap f)

/-- The fur-color choices offered by the sidebar (source line 37). -/
def fur_colors (rows : List Row) : List String :=
  availableValues rows (fun r => r.Primary_Fur_Color)

/-- The age choices offered by the sidebar (source line 41). -/
def ages (rows : List Row) : List String :=
  availableValues rows (fun r => r.Age)

/-- The shift choices offered by the sidebar (source line 45). -/
def shifts (rows : List Row) : List String :=
  availableValues rows (fun r => r.Shift)

/-- Names of the thirteen boolean behavior-flag columns. -/
inductive BoolCol where
  | Running | Chasing | Climbing | Eating | Foraging
  | Kuks | Quaas | Moans
  | Tail_flags | Tail_twitches
  | Approaches | Indifferent | Runs_from
  deriving DecidableEq, Repr

/-- Value of a named boolean flag in a record. -/
def Row.getFlag (r : Row) : BoolCol → Bool
  | BoolCol.Running => r.Running
  | BoolCol.Chasing => r.Chasing
  | BoolCol.Climbing => r.Climbing
  | BoolCol.Eating => r.Eating
  | BoolCol.Foraging => r.Foraging
  | BoolCol.Kuks => r.Kuks
  | BoolCol.Quaas => r.Quaas
  | BoolCol.Moans => r.Moans
  | BoolCol.Tail_flags => r.Tail_flags
  | BoolCol.Tail_twitches => r.Tail_twitches
  | BoolCol.Approaches => r.Approaches
  | BoolCol.Indifferent => r.Indifferent
  | BoolCol.Runs_from => r.Runs_from

/-- `filtered_df[c].sum()` on a boolean column (source lines 70, 107, 121,
131): the number of rows whose flag is true. -/
def sumBoolean (rows : List Row) (c : BoolCol) : Nat :=
  rows.countP (fun r => r.getFlag c)

/-- `[filtered_df[c].sum() for c in cols]` (source lines 107, 121, 131):
the per-field true-counts, one per field, in the order of the field list. -/
def sumBooleanSequence (rows : List Row) (cols : List BoolCol) : List Nat :=
  cols.map (sumBoolean rows)

/-- `len(filtered_df[filtered_df[field] == value])` (source lines 64, 67):
the number of rows whose categorical field equals the given string.  A
missing value never equals a string (pandas `NaN == v` is false). -/
def countWhereEquals (rows : List Row) (f : Row → Option String) (v : String) : Nat :=
  (rows.filter (fun r => f r == some v)).length

/-- A record with the given categorical fields, all flags false and all
other fields missing; used to build concrete tables. -/
def mkRow (age fur shift : Option String) : Row :=
  { Unique_Squirrel_ID := none, X := none, Y := none,
    Age := age, Primary_Fur_Color := fur, Shift := shift, Location := none,
    Running := false, Chasing := false, Climbing := false, Eating := false,
    Foraging := false, Kuks := false, Quaas := false, Moans := false,
    Tail_flags := false, Tail_twitches := false, Approaches := false,
    Indifferent := false, Runs_from := false }

/-- A record with the given Climbing and Eating flags, all other flags false
and the categorical fields filled in; used for counting scenarios. -/
def mkFlagRow (climbing eating : Bool) : Row :=
  { mkRow (some "Adult") (some "Gray") (some "AM") with
    Climbing := climbing, Eating := eating }

lemma mem_dedupFirstAux {a : String} :
    ∀ (l seen : List String), a ∈ dedupFirstAux seen l ↔ a ∈ l ∧ a ∉ seen := by
  intro l
  induction l with
  | nil => intro seen; simp [dedupFirstAux]
  | cons v rest ih =>
    intro seen
    by_cases hv : v ∈ seen
    · have hc : seen.contains v = true := by simpa using hv
      simp only [dedupFirstAux, hc, if_pos, ih, List.mem_cons]
      constructor
      · rintro ⟨hmem, hns⟩; exact ⟨Or.inr hmem, hns⟩
      · rintro ⟨hor, hns⟩
        rcases hor with heq | hmem
        · exact absurd (heq ▸ hv) hns
        · exact ⟨hmem, hns⟩
    · have hc : seen.contains v = false := by simpa using hv
      simp only [dedupFirstAux, hc, Bool.false_eq_true, if_false, List.mem_cons, ih]
      constructor
      · rintro (heq | ⟨hmem, hns⟩)
        · exact ⟨Or.inl heq, heq ▸ hv⟩
        · push_neg at hns
          exact ⟨Or.inr hmem, hns.2⟩
      · rintro ⟨hor, hns⟩
        by_cases hav : a = v
        · exact Or.inl hav
        · rcases hor with heq | hmem
          · exact absurd heq hav
          · exact Or.inr ⟨hmem, by push_neg; exact ⟨hav, hns⟩⟩

lemma nodup_dedupFirstAux : ∀ (l seen : List String), (dedupFirstAux seen l).Nodup := by
  intro l
  induction l with
  | nil => intro seen; simp [dedupFirstAux]
  | cons v rest ih =>
    intro seen
    by_cases hv : v ∈ seen
    · have hc : seen.contains v = true := by simpa using hv
      simpa only [dedupFirstAux, hc, if_pos] using ih seen
    · have hc : seen.contains v = false := by simpa using hv
      simp only [dedupFirstAux, hc, Bool.false_eq_true, if_false, List.nodup_cons]
      refine ⟨?_, ih (v :: seen)⟩
      intro hmem
      exact ((mem_dedupFirstAux rest (v :: seen)).mp hmem).2 (List.mem_cons_self v seen)

lemma pairwise_dedupFirstAux :
    ∀ (l seen : List String),
      (dedupFirstAux seen l).Pairwise (fun a b => List.indexOf a l < List.indexOf b l) := by
  intro l
  induction l with
  | nil => intro seen; simp [dedupFirstAux]
  | cons v rest ih =>
    intro seen
    by_cases hv : v ∈ seen
    · have hc : seen.contains v = true := by simpa using hv
      simp only [dedupFirstAux, hc, if_pos]
      refine (ih seen).imp_of_mem ?_
      intro a b ha hb hlt
      have haa := (mem_dedupFirstAux rest seen).mp ha
      have hbb := (mem_dedupFirstAux rest seen).mp hb
      have hav : v ≠ a := fun h => haa.2 (h ▸ hv)
      have hbv : v ≠ b := fun h => hbb.2 (h ▸ hv)
      rw [List.indexOf_cons_ne _ hav, List.indexOf_cons_ne _ hbv]
      exact Nat.succ_lt_succ hlt
    · have hc : seen.contains v = false := by simpa using hv
      simp only [dedupFirstAux, hc, Bool.false_eq_true, if_false, List.pairwise_cons]
      constructor
      · intro b hb
        have hbb := (mem_dedupFirstAux rest (v :: seen)).mp hb
        have hbv : v ≠ b := fun h => hbb.2 (h ▸ List.mem_cons_self v seen)
        rw [List.indexOf_cons_self, List.indexOf_cons_ne _ hbv]
        exact Nat.succ_pos _
      · refine (ih (v :: seen)).imp_of_mem ?_
        intro a b ha hb hlt
        have haa := (mem_dedupFirstAux rest (v :: seen)).mp ha
        have hbb := (mem_dedupFirstAux rest (v :: seen)).mp hb
        have hav : v ≠ a := fun h => haa.2 (h ▸ List.mem_cons_self v seen)
        have hbv : v ≠ b := fun h => hbb.2 (h ▸ List.mem_cons_self v seen)
        rw [List.indexOf_cons_ne _ hav, List.indexOf_cons_ne _ hbv]
        exact Nat.succ_lt_succ hlt

lemma mem_dedupFirst {a : String} {l : List String} : a ∈ dedupFirst l ↔ a ∈ l := by
  simp [dedupFirst, mem_dedupFirstAux]

lemma nodup_dedupFirst (l : List String) : (dedupFirst l).Nodup :=
  nodup_dedupFirstAux l []

lemma pairwise_dedupFirst (l : List String) :
    (dedupFirst l).Pairwise (fun a b => List.indexOf a l < List.indexOf b l) :=
  pairwise_dedupFirstAux l []

lemma mem_availableValues {v : String} {rows : List Row} {f : Row → Option String} :
    v ∈ availableValues rows f ↔ ∃ r ∈ rows, f r = some v := by
  simp [availableValues, mem_dedupFirst, List.mem_filterMap]

/-- Index of the first row whose field has the given value. -/
def firstRowWith (rows : List Row) (f : Row → Option String) (v : String) : Nat :=
  rows.findIdx (fun r => f r == some v)

lemma findIdx_lt_of_indexOf_lt (f : Row → Option String) :
    ∀ (rows : List Row) (a b : String), a ∈ rows.filterMap f →
      List.indexOf a (rows.filterMap f) < List.indexOf b (rows.filterMap f) →
      firstRowWith rows f a < firstRowWith rows f b := by
  intro rows
  induction rows with
  | nil => intro a b ha; simp at ha
  | cons r t ih =>
    intro a b ha hlt
    cases hr : f r with
    | none =>
      rw [List.filterMap_cons_none hr] at ha hlt
      have hpa : (fun r => f r == some a) r = false := by simp [hr]
      have hpb : (fun r => f r == some b) r = false := by simp [hr]
      simp only [firstRowWith, List.findIdx_cons, hpa, hpb, cond_false]
      exact Nat.succ_lt_succ (ih a b ha hlt)
    | some c =>
      rw [List.filterMap_cons_some hr] at ha hlt
      by_cases hca : c = a
      · subst hca
        have hpa : (fun r => f r == some c) r = true := by simp [hr]
        by_cases hcb : c = b
        · subst hcb
          rw [List.indexOf_cons_self] at hlt
          exact absurd hlt (Nat.not_lt_zero _)
        · have hpb : (fun r => f r == some b) r = false := by simp [hr, hcb]
          simp only [firstRowWith, List.findIdx_cons, hpa, hpb, cond_true, cond_false]
          exact Nat.succ_pos _
      · by_cases hcb : c = b
        · subst hcb
          rw [List.indexOf_cons_self] at hlt
          exact absurd hlt (Nat.not_lt_zero _)
        · have hpa : (fun r => f r == some a) r = false := by simp [hr, hca]
          have hpb : (fun r => f r == some b) r = false := by simp [hr, hcb]
          have hne_a : c ≠ a := hca
          have hne_b : c ≠ b := hcb
          rw [List.indexOf_cons_ne _ hne_a, List.indexOf_cons_ne _ hne_b] at hlt
          have ha' : a ∈ t.filterMap f := by
            rcases List.mem_cons.mp ha with h | h
            · exact absurd h.symm hca
            · exact h
          simp only [firstRowWith, List.findIdx_cons, hpa, hpb, cond_false]
          exact Nat.succ_lt_succ (ih a b ha' (Nat.lt_of_succ_lt_succ hlt))

lemma filter_stage_eq (rows : List Row) (sel : List String) (p : Row → Bool)
    (h : ∀ r ∈ rows, p r = true) :
    (if sel.isEmpty then rows else rows.filter p) = rows := by
  split
  · rfl
  · exact List.filter_eq_self.mpr h

lemma applyFilters_eq_filter (rows : List Row) (sc sa ss : List String) :
    applyFilters rows sc sa ss = rows.filter (fun r =>
      (ss.isEmpty || optIsin r.Shift ss) &&
      ((sa.isEmpty || optIsin r.Age sa) &&
       (sc.isEmpty || optIsin r.Primary_Fur_Color sc))) := by
  by_cases hsc : sc.isEmpty <;> by_cases hsa : sa.isEmpty <;> by_cases hss : ss.isEmpty <;>
    simp [applyFilters, hsc, hsa, hss, List.filter_filter]

lemma loadCol_fst (nc : String × List (Option String)) : (loadCol nc).1 = nc.1 := by
  unfold loadCol
  split
  · rfl
  · split <;> rfl

lemma loadCol_snd_length (nc : String × List (Option String)) :
    (loadCol nc).2.length = nc.2.length := by
  unfold loadCol
  split
  · simp
  · split <;> simp

lemma loadCol_bool (nc : String × List (Option String)) (hb : nc.1 ∈ bool_cols) :
    loadCol nc = (nc.1, nc.2.map coerceBoolCell) := by
  have hx : nc.1 ≠ "X" := by intro h; rw [h] at hb; revert hb; decide
  have hy : nc.1 ≠ "Y" := by intro h; rw [h] at hb; revert hb; decide
  have hc : bool_cols.contains nc.1 = true := by simpa using hb
  unfold loadCol
  rw [if_neg (by simp [hx, hy]), if_pos hc]

lemma loadCol_coord (nc : String × List (Option String))
    (hxy : nc.1 = "X" ∨ nc.1 = "Y") :
    loadCol nc = (nc.1, nc.2.map coerceCoordCell) := by
  unfold loadCol
  rw [if_pos hxy]

lemma load_data_ok {df : RawDF} {out : CanonDF} (h : load_data df = Except.ok out) :
    out = df.map loadCol := by
  unfold load_data at h
  split at h
  · exact (Except.ok.inj h).symm
  · exact absurd h (by simp)
  · exact absurd h (by simp)

/-- A two-row table whose second row has a missing Age, used to exhibit the
behavior of the full-selection filter on rows with null values. -/
def nullAgeTable : List Row :=
  [mkRow (some "Adult") (some "Gray") (some "AM"),
   mkRow none (some "Gray") (some "AM")]

/-- C1 counterexample: on a non-empty one-row table, explicitly supplying the
age filter with the empty selection set returns the unfiltered table (one
row), not an empty view. -/
theorem applyFilters_empty_age_selection_keeps_rows :
    applyFilters [mkRow (some "Adult") (some "Gray") (some "AM")] ["Gray"] [] ["AM"]
        = [mkRow (some "Adult") (some "Gray") (some "AM")] ∧
    (applyFilters [mkRow (some "Adult") (some "Gray") (some "AM")] ["Gray"] [] ["AM"]).length ≠ 0 := by
  constructor
  · decide
  · decide

/-- C1 (amended): any filterable field explicitly supplied with an empty
allowed-value set is left unconstrained (its filter is skipped), so the rows
kept are exactly those passing the remaining non-empty filters — stated for
the fur-color field empty, the age field empty, and the shift field empty,
each against arbitrary selections for the other two fields; in particular,
with all three selection sets empty, `applyFilters` returns the full
unfiltered table, not an empty view. -/
theorem applyFilters_empty_selection_unconstrained :
    (∀ rows : List Row, applyFilters rows [] [] [] = rows) ∧
    (∀ (rows : List Row) (sa ss : List String),
      applyFilters rows [] sa ss = rows.filter (fun r =>
        (ss.isEmpty || optIsin r.Shift ss) &&
        (sa.isEmpty || optIsin r.Age sa))) ∧
    (∀ (rows : List Row) (sc ss : List String),
      applyFilters rows sc [] ss = rows.filter (fun r =>
        (ss.isEmpty || optIsin r.Shift ss) &&
        (sc.isEmpty || optIsin r.Primary_Fur_Color sc))) ∧
    (∀ (rows : List Row) (sc sa : List String),
      applyFilters rows sc sa [] = rows.filter (fun r =>
        (sa.isEmpty || optIsin r.Age sa) &&
        (sc.isEmpty || optIsin r.Primary_Fur_Color sc))) := by
  refine ⟨fun rows => rfl, fun rows sa ss => ?_, fun rows sc ss => ?_, fun rows sc sa => ?_⟩
  · rw [applyFilters_eq_filter]
    simp
  · rw [applyFilters_eq_filter]
    simp
  · rw [applyFilters_eq_filter]
    simp

/-- C2 counterexample: on a table whose second row has a null Age, supplying
all three filterable fields with their full available-value sets drops the
null-Age row, so the result is not the full canonical table. -/
theorem applyFilters_full_selection_drops_null_row :
    applyFilters nullAgeTable
        (fur_colors nullAgeTable) (ages nullAgeTable) (shifts nullAgeTable)
        ≠ nullAgeTable ∧
    applyFilters nullAgeTable
        (fur_colors nullAgeTable) (ages nullAgeTable) (shifts nullAgeTable)
        = [mkRow (some "Adult") (some "Gray") (some "AM")] := by
  constructor
  · decide
  · decide

/-- C2 (amended): for every canonical table in which every row carries a
non-null fur color, age and shift, `applyFilters` with each of the three
fields set to its full available-value set returns exactly the full table,
row order preserved. -/
theorem applyFilters_full_selection_id (rows : List Row)
    (h : ∀ r ∈ rows, r.Primary_Fur_Color.isSome ∧ r.Age.isSome ∧ r.Shift.isSome) :
    applyFilters rows (fur_colors rows) (ages rows) (shifts rows) = rows := by
  have hc : (if (fur_colors rows).isEmpty then rows
      else rows.filter (fun r => optIsin r.Primary_Fur_Color (fur_colors rows))) = rows := by
    refine filter_stage_eq rows _ _ ?_
    intro r hr
    obtain ⟨v, hv⟩ := Option.isSome_iff_exists.mp (h r hr).1
    have hmem : v ∈ fur_colors rows := mem_availableValues.mpr ⟨r, hr, hv⟩
    simp [optIsin, hv, hmem]
  have ha : (if (ages rows).isEmpty then rows
      else rows.filter (fun r => optIsin r.Age (ages rows))) = rows := by
    refine filter_stage_eq rows _ _ ?_
    intro r hr
    obtain ⟨v, hv⟩ := Option.isSome_iff_exists.mp (h r hr).2.1
    have hmem : v ∈ ages rows := mem_availableValues.mpr ⟨r, hr, hv⟩
    simp [optIsin, hv, hmem]
  have hs : (if (shifts rows).isEmpty then rows
      else rows.filter (fun r => optIsin r.Shift (shifts rows))) = rows := by
    refine filter_stage_eq rows _ _ ?_
    intro r hr
    obtain ⟨v, hv⟩ := Option.isSome_iff_exists.mp (h r hr).2.2
    have hmem : v ∈ shifts rows := mem_availableValues.mpr ⟨r, hr, hv⟩
    simp [optIsin, hv, hmem]
  show applyFilters rows (fur_colors rows) (ages rows) (shifts rows) = rows
  simp only [applyFilters]
  rw [hc, ha, hs]

/-- C2 witness: a concrete two-row fully-populated table on which the
full-selection filter is the identity. -/
theorem applyFilters_full_selection_id_witness :
    applyFilters [mkRow (some "Adult") (some "Gray") (some "AM"),
                  mkRow (some "Juvenile") (some "Black") (some "PM")]
        (fur_colors [mkRow (some "Adult") (some "Gray") (some "AM"),
                     mkRow (some "Juvenile") (some "Black") (some "PM")])
        (ages [mkRow (some "Adult") (some "Gray") (some "AM"),
               mkRow (some "Juvenile") (some "Black") (some "PM")])
        (shifts [mkRow (some "Adult") (some "Gray") (some "AM"),
                 mkRow (some "Juvenile") (some "Black") (some "PM")])
      = [mkRow (some "Adult") (some "Gray") (some "AM"),
         mkRow (some "Juvenile") (some "Black") (some "PM")] :=
  applyFilters_full_selection_id _ (by decide)

/-- C6: `sumBooleanSequence` returns the per-field true-counts in exactly the
order of the input field list; concretely, for fields `[Climbing, Eating]`
with 3 climbing rows and 10 eating rows it returns `[3, 10]`, and for counts
2 and 1 it returns `[2, 1]`, never sorting by magnitude. -/
theorem sumBooleanSequence_preserves_order :
    (∀ (rows : List Row) (cols : List BoolCol) (i : Nat),
      (sumBooleanSequence rows cols).length = cols.length ∧
      (sumBooleanSequence rows cols)[i]? = (cols[i]?).map (sumBoolean rows)) ∧
    sumBooleanSequence
        (List.replicate 3 (mkFlagRow true true) ++ List.replicate 7 (mkFlagRow false true))
        [BoolCol.Climbing, BoolCol.Eating] = [3, 10] ∧
    sumBooleanSequence [mkFlagRow true false, mkFlagRow true true]
        [BoolCol.Climbing, BoolCol.Eating] = [2, 1] := by
  refine ⟨fun rows cols i => ⟨by simp [sumBooleanSequence], ?_⟩, by decide, by decide⟩
  simp [sumBooleanSequence]

/-- C7: `availableValues` returns the distinct values of the field with nulls
dropped, ordered by first occurrence in the canonical table. -/
theorem availableValues_distinct_firstSeen (rows : List Row) (f : Row → Option String) :
    (availableValues rows f).Nodup ∧
    (∀ v, v ∈ availableValues rows f ↔ ∃ r ∈ rows, f r = some v) ∧
    (availableValues rows f).Pairwise
      (fun a b => firstRowWith rows f a < firstRowWith rows f b) := by
  refine ⟨nodup_dedupFirst _, fun v => mem_availableValues, ?_⟩
  refine (pairwise_dedupFirst (rows.filterMap f)).imp_of_mem ?_
  intro a b ha hb hlt
  exact findIdx_lt_of_indexOf_lt f rows a b (mem_dedupFirst.mp ha) hlt

/-- C10: `countWhereEquals` never counts rows whose value for the field is
absent: dropping the null-valued rows first does not change the count, a
null-Age row is never counted as Adult, and a null-fur-color row is never
counted as Gray, on any view including filtered ones. -/
theorem countWhereEquals_ignores_null :
    (∀ (rows : List Row) (f : Row → Option String) (v : String),
      countWhereEquals rows f v =
        countWhereEquals (rows.filter (fun r => (f r).isSome)) f v) ∧
    (∀ (tbl : List Row) (sc sa ss : List String) (f : Row → Option String) (v : String),
      countWhereEquals (applyFilters tbl sc sa ss) f v =
        countWhereEquals ((applyFilters tbl sc sa ss).filter (fun r => (f r).isSome)) f v) ∧
    countWhereEquals [mkRow none (some "Gray") (some "AM")] (fun r => r.Age) "Adult" = 0 ∧
    countWhereEquals [mkRow (some "Adult") none (some "AM")]
        (fun r => r.Primary_Fur_Color) "Gray" = 0 := by
  have main : ∀ (rows : List Row) (f : Row → Option String) (v : String),
      countWhereEquals rows f v =
        countWhereEquals (rows.filter (fun r => (f r).isSome)) f v := by
    intro rows f v
    simp only [countWhereEquals, List.filter_filter]
    refine congrArg List.length (List.filter_congr ?_)
    intro r _
    cases hr : f r <;> simp [hr]
  exact ⟨main, fun tbl sc sa ss f v => main _ f v, by decide, by decide⟩

/-- A small concrete raw frame exercising every coercion class: coordinates
with comma separators, unparsable and missing coordinates, boolean tokens of
every shape, and an untouched categorical column. -/
def sampleRawDF : RawDF :=
  [("X", [some "-73,9", none]),
   ("Y", [some "40.7", some "N/A"]),
   ("Climbing", [some "true", some "FALSE"]),
   ("Age", [some "Adult", none])]

/-- The canonical frame the loader produces from `sampleRawDF`. -/
def sampleOut : CanonDF :=
  [("X", [Cell.num { m := -739, e := 1 }, Cell.null]),
   ("Y", [Cell.num { m := 407, e := 1 }, Cell.null]),
   ("Climbing", [Cell.bool true, Cell.bool false]),
   ("Age", [Cell.str "Adult", Cell.null])]

/-- C3: the loader normalizes every raw value of a declared boolean-flag
column present in the source to true iff its uppercase string form equals
"TRUE"; every other value, including null, "FALSE", the empty string, "1" or
garbage, normalizes to false. -/
theorem loader_bool_normalization :
    (∀ (df : RawDF) (out : CanonDF) (name : String) (col : List (Option String)),
      load_data df = Except.ok out → (name, col) ∈ df → name ∈ bool_cols →
      (name, col.map coerceBoolCell) ∈ out) ∧
    (∀ c : Option String, coerceBool c = true ↔ pyUpper (pyStr c) = "TRUE") ∧
    coerceBool none = false ∧
    coerceBool (some "true") = true ∧
    coerceBool (some "True") = true ∧
    coerceBool (some "TRUE") = true ∧
    coerceBool (some "FALSE") = false ∧
    coerceBool (some "") = false ∧
    coerceBool (some "1") = false := by
  refine ⟨?_, fun c => ?_, by decide, by decide, by decide, by decide, by decide,
    by decide, by decide⟩
  · intro df out name col hload hmem hb
    rw [load_data_ok hload]
    have : loadCol (name, col) = (name, col.map coerceBoolCell) := loadCol_bool (name, col) hb
    rw [← this]
    exact List.mem_map_of_mem loadCol hmem
  · simp [coerceBool]

/-- C3 witness: on the sample frame, the Climbing column is normalized
cellwise by the boolean coercion. -/
theorem loader_bool_normalization_witness :
    ("Climbing", [some "true", some "FALSE"].map coerceBoolCell) ∈ sampleOut :=
  loader_bool_normalization.1 sampleRawDF sampleOut "Climbing"
    [some "true", some "FALSE"] (by rfl) (by decide) (by decide)

/-- C4: the loader converts each coordinate cell to a string, replaces comma
separators with periods and attempts a numeric parse; "-73,9" becomes the
number -73.9, "N/A" becomes absent, and every parse failure becomes absent —
never an error cell and never zero. -/
theorem loader_coord_normalization :
    (∀ (df : RawDF) (out : CanonDF) (name : String) (col : List (Option String)),
      load_data df = Except.ok out → (name, col) ∈ df → (name = "X" ∨ name = "Y") →
      (name, col.map coerceCoordCell) ∈ out) ∧
    coerceCoordCell (some "-73,9") = Cell.num { m := -739, e := 1 } ∧
    Decimal.toRat { m := -739, e := 1 } = -(739 / 10 : Rat) ∧
    coerceCoordCell (some "N/A") = Cell.null ∧
    (∀ s : String, parseNum (replaceCommaDot s) = none →
      coerceCoordCell (some s) = Cell.null) ∧
    (∀ c : Option String, coerceCoordCell c = Cell.null ∨
      ∃ d : Decimal, coerceCoordCell c = Cell.num d) := by
  refine ⟨?_, by decide, ?_, by decide, ?_, ?_⟩
  · intro df out name col hload hmem hxy
    rw [load_data_ok hload]
    have : loadCol (name, col) = (name, col.map coerceCoordCell) :=
      loadCol_coord (name, col) hxy
    rw [← this]
    exact List.mem_map_of_mem loadCol hmem
  · norm_num [Decimal.toRat]
  · intro s h
    simp [coerceCoordCell, pyStr, h]
  · intro c
    cases hp : parseNum (replaceCommaDot (pyStr c)) with
    | none => exact Or.inl (by simp [coerceCoordCell, hp])
    | some d => exact Or.inr ⟨d, by simp [coerceCoordCell, hp]⟩

/-- C4 witness: on the sample frame, the X column is normalized cellwise by
the coordinate coercion. -/
theorem loader_coord_normalization_witness :
    ("X", [some "-73,9", none].map coerceCoordCell) ∈ sampleOut :=
  loader_coord_normalization.1 sampleRawDF sampleOut "X"
    [some "-73,9", none] (by rfl) (by decide) (by decide)

/-- C5: in every canonical table the loader produces, every cell of every
declared behavior-flag column is exactly the boolean true or the boolean
false — never null, absent, a string or a number. -/
theorem loader_flag_invariant :
    ∀ (df : RawDF) (out : CanonDF) (name : String) (ccol : List Cell),
      load_data df = Except.ok out → (name, ccol) ∈ out → name ∈ bool_cols →
      ∀ c ∈ ccol, c = Cell.bool true ∨ c = Cell.bool false := by
  intro df out name ccol hload hmem hb c hc
  rw [load_data_ok hload] at hmem
  obtain ⟨nc, hnc, heq⟩ := List.mem_map.mp hmem
  have hfst : nc.1 = name := by rw [← loadCol_fst nc, heq]
  have hbool : loadCol nc = (nc.1, nc.2.map coerceBoolCell) :=
    loadCol_bool nc (hfst ▸ hb)
  have hcol : ccol = nc.2.map coerceBoolCell := by
    have := heq.symm.trans hbool
    exact (Prod.mk.injEq _ _ _ _ ▸ this).2
  rw [hcol] at hc
  obtain ⟨x, _, hx⟩ := List.mem_map.mp hc
  cases hcb : coerceBool x with
  | false => right; rw [← hx, coerceBoolCell, hcb]
  | true => left; rw [← hx, coerceBoolCell, hcb]

/-- C5 witness: the flag invariant instantiated on the sample frame's
Climbing column. -/
theorem loader_flag_invariant_witness :
    Cell.bool true = Cell.bool true ∨ Cell.bool true = Cell.bool false :=
  loader_flag_invariant sampleRawDF sampleOut "Climbing"
    [Cell.bool true, Cell.bool false] (by rfl) (by decide) (by decide)
    (Cell.bool true) (by decide)

/-- C8: a raw source missing a declared optional boolean-flag column still
loads successfully (provided the required coordinate columns are present):
the loader returns a table with exactly the source's columns — normalization
is simply skipped for the absent column — and every present column appears
normalized. -/
theorem loader_missing_bool_col_ok :
    ∀ (df : RawDF) (b : String), b ∈ bool_cols → df.lookup b = none →
      (df.lookup "X").isSome → (df.lookup "Y").isSome →
      ∃ out : CanonDF, load_data df = Except.ok out ∧
        out.map Prod.fst = df.map Prod.fst ∧
        ∀ name col, (name, col) ∈ df → (name, (loadCol (name, col)).2) ∈ out := by
  intro df b hb hlb hx hy
  refine ⟨df.map loadCol, ?_, ?_, ?_⟩
  · obtain ⟨cx, hcx⟩ := Option.isSome_iff_exists.mp hx
    obtain ⟨cy, hcy⟩ := Option.isSome_iff_exists.mp hy
    unfold load_data
    rw [hcx, hcy]
  · rw [List.map_map]
    exact List.map_congr_left (fun nc _ => loadCol_fst nc)
  · intro name col hmem
    have : (name, (loadCol (name, col)).2) = loadCol (name, col) :=
      Prod.ext_iff.mpr ⟨(loadCol_fst (name, col)).symm, rfl⟩
    rw [this]
    exact List.mem_map_of_mem loadCol hmem

/-- C8 witness: a frame with coordinates and an Age column but no Climbing
column loads successfully. -/
theorem loader_missing_bool_col_ok_witness :
    ∃ out : CanonDF,
      load_data [("X", [some "1"]), ("Y", [none]), ("Age", [some "Adult"])] =
        Except.ok out ∧
      out.map Prod.fst =
        ([("X", [some "1"]), ("Y", [none]), ("Age", [some "Adult"])] : RawDF).map Prod.fst ∧
      ∀ name col,
        (name, col) ∈ ([("X", [some "1"]), ("Y", [none]), ("Age", [some "Adult"])] : RawDF) →
        (name, (loadCol (name, col)).2) ∈ out :=
  loader_missing_bool_col_ok [("X", [some "1"]), ("Y", [none]), ("Age", [some "Adult"])]
    "Climbing" (by decide) (by decide) (by decide) (by decide)

/-- C9: the coercion functions are total with well-defined defaults — every
coordinate cell becomes a parsed number or absent, every boolean cell becomes
a strict boolean — and no row is rejected: loading preserves the length of
every column. -/
theorem coercion_total_no_row_rejected :
    (∀ c : Option String, coerceCoordCell c = Cell.null ∨
      ∃ d : Decimal, coerceCoordCell c = Cell.num d) ∧
    (∀ c : Option String, ∃ b : Bool, coerceBoolCell c = Cell.bool b) ∧
    ∀ (df : RawDF) (out : CanonDF) (name : String) (col : List (Option String)),
      load_data df = Except.ok out → (name, col) ∈ df →
      ∃ ccol : List Cell, (name, ccol) ∈ out ∧ ccol.length = col.length := by
  refine ⟨?_, fun c => ⟨coerceBool c, rfl⟩, ?_⟩
  · intro c
    cases hp : parseNum (replaceCommaDot (pyStr c)) with
    | none => exact Or.inl (by simp [coerceCoordCell, hp])
    | some d => exact Or.inr ⟨d, by simp [coerceCoordCell, hp]⟩
  · intro df out name col hload hmem
    refine ⟨(loadCol (name, col)).2, ?_, loadCol_snd_length (name, col)⟩
    rw [load_data_ok hload]
    have : (name, (loadCol (name, col)).2) = loadCol (name, col) :=
      Prod.ext_iff.mpr ⟨(loadCol_fst (name, col)).symm, rfl⟩
    rw [this]
    exact List.mem_map_of_mem loadCol hmem

/-- C9 witness: on the sample frame, the Age column survives loading with
both of its rows. -/
theorem coercion_total_no_row_rejected_witness :
    ∃ ccol : List Cell, ("Age", ccol) ∈ sampleOut ∧
      ccol.length = ([some "Adult", none] : List (Option String)).length :=
  coercion_total_no_row_rejected.2.2 sampleRawDF sampleOut "Age"
    [some "Adult", none] (by rfl) (by decide)
